import Mathlib

/-!
Verification of the Learnline Facebook denoiser service
(`src/server/python/denoiser_service.py`).

The service is a line-oriented JSON worker: it reads one command per line
(`init`, `process`, `health`), holds a single mutable session state (an
`is_initialized` flag plus running statistics), and writes one JSON response
per command.  We shallowly embed the service in Lean:

* bytes are `Nat`s (< 256 is stated as a hypothesis where it matters);
* float32 samples are modelled as rationals `ℚ` (the numeric identities the
  spec claims are about lengths, scaling and list structure, not about IEEE
  rounding);
* the external pretrained model (`apply_model`) is an explicit parameter of
  type `Model := List ℚ → Except String (List ℚ)` — `.error` models the
  model call raising an exception;
* each per-command environmental effect (model-loading outcome on `init`,
  elapsed wall-clock time) is passed in a `StepEnv`;
* a numpy array carried inside a result dict is represented by the
  `AudioField.raw` constructor; `json.dumps` rejects exactly those values,
  which `deliver` models.
-/

namespace Denoiser

/-! ### Base64 (Python `base64.b64encode` / `base64.b64decode`)

Standard base64 with `=` padding, over byte lists.  `b64decode` returns
`none` where CPython raises `binascii.Error` (invalid characters, bad
length, misplaced padding); CPython's tolerance of data after embedded
padding is not modelled, only standard-conformant inputs are. -/

/-- The standard base64 alphabet: value 0–63 to character. -/
def sextetToChar (n : Nat) : Char :=
  if n < 26 then Char.ofNat (65 + n)
  else if n < 52 then Char.ofNat (97 + (n - 26))
  else if n < 62 then Char.ofNat (48 + (n - 52))
  else if n = 62 then '+'
  else '/'

/-- Inverse of the base64 alphabet; `none` for characters outside it
(including the padding character). -/
def charToSextet (c : Char) : Option Nat :=
  if 65 ≤ c.toNat ∧ c.toNat ≤ 90 then some (c.toNat - 65)
  else if 97 ≤ c.toNat ∧ c.toNat ≤ 122 then some (c.toNat - 97 + 26)
  else if 48 ≤ c.toNat ∧ c.toNat ≤ 57 then some (c.toNat - 48 + 52)
  else if c = '+' then some 62
  else if c = '/' then some 63
  else none

/-- `base64.b64encode`: bytes to base64 characters, three bytes per
four-character group, `=`-padded. -/
def b64encode : List Nat → List Char
  | [] => []
  | [a] =>
      [sextetToChar (a / 4), sextetToChar (a % 4 * 16), '=', '=']
  | [a, b] =>
      [sextetToChar (a / 4), sextetToChar (a % 4 * 16 + b / 16),
       sextetToChar (b % 16 * 4), '=']
  | a :: b :: c :: rest =>
      sextetToChar (a / 4) :: sextetToChar (a % 4 * 16 + b / 16) ::
      sextetToChar (b % 16 * 4 + c / 64) :: sextetToChar (c % 64) ::
      b64encode rest

/-- `base64.b64decode`: base64 characters back to bytes; `none` models a
raised `binascii.Error`. -/
def b64decode : List Char → Option (List Nat)
  | [] => some []
  | c1 :: c2 :: c3 :: c4 :: rest => do
      let s1 ← charToSextet c1
      let s2 ← charToSextet c2
      if c3 = '=' ∧ c4 = '=' ∧ rest = [] then
        some [s1 * 4 + s2 / 16]
      else if c4 = '=' ∧ rest = [] then do
        let s3 ← charToSextet c3
        some [s1 * 4 + s2 / 16, s2 % 16 * 16 + s3 / 4]
      else do
        let s3 ← charToSextet c3
        let s4 ← charToSextet c4
        let tail ← b64decode rest
        some ((s1 * 4 + s2 / 16) :: (s2 % 16 * 16 + s3 / 4) ::
              (s3 % 4 * 64 + s4) :: tail)
  | _ => none

lemma charToSextet_sextetToChar {n : Nat} (h : n < 64) :
    charToSextet (sextetToChar n) = some n := by
  revert h
  revert n
  decide

lemma sextetToChar_ne_pad {n : Nat} (h : n < 64) : sextetToChar n ≠ '=' := by
  revert h
  revert n
  decide

/-- Base64 round-trip at the byte level: decoding the encoding of any byte
list recovers it exactly. -/
lemma b64decode_b64encode (bs : List Nat) (hb : ∀ b ∈ bs, b < 256) :
    b64decode (b64encode bs) = some bs := by
  induction bs using b64encode.induct with
  | case1 => rfl
  | case2 a =>
      have ha : a < 256 := hb a (by simp)
      have h1 : a / 4 < 64 := by omega
      have h2 : a % 4 * 16 < 64 := by omega
      simp [b64encode, b64decode, charToSextet_sextetToChar h1,
        charToSextet_sextetToChar h2]
      omega
  | case3 a b =>
      have ha : a < 256 := hb a (by simp)
      have hbb : b < 256 := hb b (by simp)
      have h1 : a / 4 < 64 := by omega
      have h2 : a % 4 * 16 + b / 16 < 64 := by omega
      have h3 : b % 16 * 4 < 64 := by omega
      simp [b64encode, b64decode, charToSextet_sextetToChar h1,
        charToSextet_sextetToChar h2, charToSextet_sextetToChar h3,
        sextetToChar_ne_pad h3]
      omega
  | case4 a b c rest ih =>
      have ha : a < 256 := hb a (by simp)
      have hbb : b < 256 := hb b (by simp)
      have hc : c < 256 := hb c (by simp)
      have hrest : ∀ x ∈ rest, x < 256 := fun x hx => hb x (by simp [hx])
      have h1 : a / 4 < 64 := by omega
      have h2 : a % 4 * 16 + b / 16 < 64 := by omega
      have h3 : b % 16 * 4 + c / 64 < 64 := by omega
      have h4 : c % 64 < 64 := by omega
      simp [b64encode, b64decode, charToSextet_sextetToChar h1,
        charToSextet_sextetToChar h2, charToSextet_sextetToChar h3,
        charToSextet_sextetToChar h4, sextetToChar_ne_pad h3,
        sextetToChar_ne_pad h4, ih hrest]
      omega

/-! ### numpy float32 marshalling

`np.frombuffer(bytes, dtype=np.float32)` and `ndarray.tobytes()`.  The
decode direction interprets each little-endian 4-byte group as an IEEE 754
binary32 value, read off exactly as a rational (exponent 255, i.e. inf/NaN,
has no rational value and is mapped to 0; no claim depends on non-finite
samples).  The encode direction (4-byte serialization of one sample) is a
parameter `enc` wherever it is needed, constrained only by what every
float32 serialization satisfies: four bytes per sample. -/

/-- IEEE 754 binary32 value of four little-endian bytes, as a rational. -/
def f32val (b0 b1 b2 b3 : Nat) : ℚ :=
  let bits : Nat := b0 + 256 * b1 + 65536 * b2 + 16777216 * b3
  let sign : ℚ := if bits / 2 ^ 31 % 2 = 1 then -1 else 1
  let e : Nat := bits / 2 ^ 23 % 256
  let frac : Nat := bits % 2 ^ 23
  if e = 0 then sign * ((frac : ℚ) / 2 ^ 149)
  else if e = 255 then 0
  else sign * (((2 ^ 23 + frac : Nat) : ℚ) * 2 ^ e / 2 ^ 150)

/-- Little-endian 4-byte groups to float32 samples (the payload of
`np.frombuffer`; the length check lives in `frombuffer`). -/
def floats_of_bytes : List Nat → List ℚ
  | b0 :: b1 :: b2 :: b3 :: rest => f32val b0 b1 b2 b3 :: floats_of_bytes rest
  | [] => []
  | [_] => []
  | [_, _] => []
  | [_, _, _] => []

/-- `np.frombuffer(audio_bytes, dtype=np.float32)`: raises unless the byte
count is a multiple of the element size. -/
def frombuffer (bs : List Nat) : Except String (List ℚ) :=
  if bs.length % 4 = 0 then .ok (floats_of_bytes bs)
  else .error "buffer size must be a multiple of element size"

/-- `ndarray.tobytes()` for a float32 array: concatenation of the 4-byte
serializations of the samples; `enc` is the per-sample serialization. -/
def tobytes (enc : ℚ → List Nat) (xs : List ℚ) : List Nat :=
  (xs.map enc).flatten

lemma floats_of_bytes_length (bs : List Nat) :
    (floats_of_bytes bs).length = bs.length / 4 := by
  induction bs using floats_of_bytes.induct with
  | case1 b0 b1 b2 b3 rest ih =>
      simp [floats_of_bytes, ih]
      omega
  | case2 => rfl
  | case3 => simp [floats_of_bytes]
  | case4 => simp [floats_of_bytes]
  | case5 => simp [floats_of_bytes]

lemma tobytes_length (enc : ℚ → List Nat) (henc : ∀ q, (enc q).length = 4)
    (xs : List ℚ) : (tobytes enc xs).length = 4 * xs.length := by
  induction xs with
  | nil => rfl
  | cons x xs ih =>
      simp [tobytes] at ih ⊢
      simp [henc x, ih]
      ring

/-! ### Session state and statistics

`FacebookDenoiserService.__init__`: `is_initialized` starts false and
`processing_stats` starts at zero.  The model handle and the torch device
are not part of this record: the model's behavior is the explicit `Model`
parameter of `process_audio`/`step` (the service guards on
`is_initialized`, which implies the handle is set), and the device string
never influences control flow. -/

structure Stats where
  total_processed : Nat
  total_time : ℚ
  avg_time : ℚ
  max_time : ℚ
  errors : Nat
deriving Repr, DecidableEq

/-- `processing_stats` as set up in `__init__`: all counters zero. -/
def Stats.start : Stats :=
  { total_processed := 0, total_time := 0, avg_time := 0, max_time := 0,
    errors := 0 }

structure ServiceState where
  is_initialized : Bool
  stats : Stats
deriving Repr, DecidableEq

/-- Session state at process start. -/
def ServiceState.start : ServiceState :=
  { is_initialized := false, stats := Stats.start }

/-- The external pretrained model (`apply_model` after the squeeze back to a
flat sequence): `.error` models the call raising an exception. -/
def Model : Type := List ℚ → Except String (List ℚ)

/-- The `audio` entry of a result dict: absent/`None`, a raw numpy array
(which `json.dumps` cannot serialize), or a base64 string. -/
inductive AudioField where
  | none
  | raw (samples : List ℚ)
  | b64 (s : List Char)
deriving Repr, DecidableEq

/-- A result/response dict; fields the handlers leave out are `none`.
The environment-dependent `device`, `model_type`, `memory_usage` and
`error` entries carry no control flow and are not modelled. -/
structure Response where
  status : String
  message : Option String := Option.none
  audio : AudioField := AudioField.none
  processing_time : Option ℚ := Option.none
  input_samples : Option Nat := Option.none
  output_samples : Option Nat := Option.none
  stats : Option Stats := Option.none
  model_loaded : Option Bool := Option.none
  init_time : Option ℚ := Option.none
deriving Repr, DecidableEq

/-! ### `FacebookDenoiserService.process_audio` (lines 106–204)

The input is already float32 (`astype` is the identity there), so the dtype
conversion of line 130 is a no-op in this embedding.  `dt` is the elapsed
wall-clock time of the call in milliseconds, an environmental input. -/

/-- `np.abs(audio_data).max()` for a non-empty buffer (folded with the
neutral element 0, which equals the true maximum since `|x| ≥ 0`). -/
def maxAbs (xs : List ℚ) : ℚ :=
  (xs.map (fun x => |x|)).foldr max 0

/-- Lines 132–134: `if np.abs(audio_data).max() > 1.0: audio_data =
audio_data / np.abs(audio_data).max()`. -/
def normalize (xs : List ℚ) : List ℚ :=
  if maxAbs xs > 1 then xs.map (fun x => x / maxAbs xs) else xs

/-- Lines 162–168: force the model output to the input length — trim when
longer, zero-pad (`np.pad`) when shorter. -/
def fitLength (denoised : List ℚ) (n : Nat) : List ℚ :=
  if denoised.length ≠ n then
    if denoised.length > n then denoised.take n
    else denoised ++ List.replicate (n - denoised.length) 0
  else denoised

/-- Line 175's statistics update on a successful call. -/
def statsOnSuccess (s : Stats) (dt : ℚ) : Stats :=
  { total_processed := s.total_processed + 1
    total_time := s.total_time + dt
    avg_time := (s.total_time + dt) / ((s.total_processed : ℚ) + 1)
    max_time := max s.max_time dt
    errors := s.errors }

/-- `FacebookDenoiserService.process_audio`.  Returns the state after the
call together with the result dict.  On the exception path the result
carries the (possibly renormalized) numpy array in its `audio` entry,
exactly as line 201 does. -/
def process_audio (m : Model) (st : ServiceState) (audio_data : List ℚ)
    (dt : ℚ) : ServiceState × Response :=
  if ¬ st.is_initialized then
    (st, { status := "error", message := some "Model not initialized",
           audio := AudioField.none, processing_time := some 0 })
  else if audio_data.length = 0 then
    (st, { status := "error", message := some "Empty audio data",
           audio := AudioField.none, processing_time := some 0 })
  else
    let scaled := normalize audio_data
    match m scaled with
    | Except.ok denoisedRaw =>
        let denoised := fitLength denoisedRaw audio_data.length
        let s := statsOnSuccess st.stats dt
        ({ st with stats := s },
         { status := "success", audio := AudioField.raw denoised,
           processing_time := some dt,
           input_samples := some audio_data.length,
           output_samples := some denoised.length, stats := some s })
    | Except.error e =>
        let s := { st.stats with errors := st.stats.errors + 1 }
        ({ st with stats := s },
         { status := "error",
           message := some ("Audio processing failed: " ++ e),
           audio := AudioField.raw scaled, processing_time := some dt })

/-- `FacebookDenoiserService.health_check` (lines 206–214): pure read of
the session state. -/
def health_check (st : ServiceState) : Response :=
  { status := if st.is_initialized then "healthy" else "not_initialized",
    model_loaded := some st.is_initialized, stats := some st.stats }

/-- `FacebookDenoiserService.initialize_model` (lines 47–104).  The outcome
of the model-loading attempt (the try block) is the environmental input
`load`: `.ok` means a model was acquired and moved to the device, `.error`
models any exception, which line 98 converts to an error dict leaving
`is_initialized` (set only on line 86, after the whole try block succeeds)
untouched. -/
def initialize_model (load : Except String Unit) (st : ServiceState)
    (dt : ℚ) : ServiceState × Response :=
  match load with
  | Except.ok _ =>
      ({ st with is_initialized := true },
       { status := "success", message := some "Model initialized successfully",
         init_time := some dt })
  | Except.error e =>
      (st, { status := "error",
             message := some ("Model initialization failed: " ++ e) })

/-! ### The main loop (`main`, lines 232–319)

One loop iteration: read a line, parse it, dispatch, serialize the result.
A `Line` is either a line `json.loads` rejects, or the parsed command
object reduced to the fields the dispatcher reads (`command`, `audio`,
`model_path`; a missing key reads as `none`). -/

inductive Line where
  | invalid (err : String)
  | cmd (command : Option String) (audio : Option (List Char))
        (model_path : Option String)
deriving Repr, DecidableEq

/-- Environmental inputs of one loop iteration: the model-loading outcome
(used only by `init`) and the elapsed time of the command. -/
structure StepEnv where
  load : Except String Unit
  dt : ℚ

/-- Python's rendering of the command value inside the f-string
`f'Unknown command: \x7bcommand_type\x7d'` (a missing key prints `None`). -/
def showCmd : Option String → String
  | Option.none => "None"
  | some s => s

/-- A result dict passes `json.dumps` iff it does not carry a raw numpy
array. -/
def serializable (r : Response) : Bool :=
  match r.audio with
  | AudioField.raw _ => false
  | _ => true

/-- Line 296's `print(json.dumps(result))`: if serialization raises, the
outer `except Exception` handler (lines 306–313) emits a `Service error`
envelope instead — the state mutations of the handler are kept. -/
def deliver (r : Response) : Response :=
  if serializable r then r
  else { status := "error",
         message :=
           some "Service error: Object of type ndarray is not JSON serializable" }

/-- Lines 271–274: re-encode the processed audio to base64, but only when
`status == 'success'` and the audio entry is not `None`. -/
def encodeResult (enc : ℚ → List Nat) (r : Response) : Response :=
  if r.status = "success" ∧ r.audio ≠ AudioField.none then
    match r.audio with
    | AudioField.raw xs =>
        { r with audio := AudioField.b64 (b64encode (tobytes enc xs)) }
    | _ => r
  else r

/-- Lines 268–276: run `process_audio` on the decoded samples, re-encode the
audio of a success result, and serialize. -/
def processDecoded (m : Model) (enc : ℚ → List Nat) (st : ServiceState)
    (samples : List ℚ) (dt : ℚ) : ServiceState × Response :=
  let p := process_audio m st samples dt
  (p.1, deliver (encodeResult enc p.2))

/-- One iteration of the main loop: state before, line read, environmental
inputs; gives the state after and the response written to stdout. -/
def step (m : Model) (enc : ℚ → List Nat) (st : ServiceState) (l : Line)
    (env : StepEnv) : ServiceState × Response :=
  match l with
  | Line.invalid e =>
      (st, { status := "error", message := some ("Invalid JSON: " ++ e) })
  | Line.cmd c audio _model_path =>
      if c = some "init" then
        let (st', r) := initialize_model env.load st env.dt
        (st', deliver r)
      else if c = some "process" then
        if audio = Option.none ∨ audio = some [] then
          (st, deliver { status := "error",
                         message := some "No audio data provided" })
        else
          match b64decode (audio.getD []) with
          | Option.none =>
              (st, deliver
                { status := "error",
                  message := some "Audio decoding/encoding failed: Invalid base64-encoded string" })
          | some bytes =>
              match frombuffer bytes with
              | Except.error e =>
                  (st, deliver
                    { status := "error",
                      message := some ("Audio decoding/encoding failed: " ++ e) })
              | Except.ok samples => processDecoded m enc st samples env.dt
      else if c = some "health" then
        (st, deliver (health_check st))
      else
        (st, deliver
          { status := "error",
            message := some ("Unknown command: " ++ showCmd c) })

/-- The main loop over a whole input stream: the final state and, per line,
the line paired with the response written for it. -/
def runService (m : Model) (enc : ℚ → List Nat) (st : ServiceState) :
    List (Line × StepEnv) → ServiceState × List (Line × Response)
  | [] => (st, [])
  | (l, env) :: rest =>
      let p := step m enc st l env
      let q := runService m enc p.1 rest
      (q.1, (l, p.2) :: q.2)

/-- Whether a line is a `process` command (the dispatcher's second arm). -/
def isProcessLine : Line → Bool
  | Line.cmd c _ _ => c = some "process"
  | _ => false

/-- Number of successful `process` calls in a transcript. -/
def countSuccess (rs : List (Line × Response)) : Nat :=
  (rs.filter (fun p => isProcessLine p.1 && (p.2.status == "success"))).length

/-- Whether a line is an `init` command (the dispatcher's first arm). -/
def isInitLine : Line → Bool
  | Line.cmd c _ _ => c = some "init"
  | _ => false

/-! ### Helper lemmas -/

lemma maxAbs_nonneg (xs : List ℚ) : 0 ≤ maxAbs xs := by
  induction xs with
  | nil => simp [maxAbs]
  | cons x xs ih =>
      simp only [maxAbs, List.map_cons, List.foldr_cons]
      exact le_trans ih (le_max_right _ _)

lemma maxAbs_cons (x : ℚ) (xs : List ℚ) :
    maxAbs (x :: xs) = max |x| (maxAbs xs) := rfl

lemma abs_le_maxAbs (xs : List ℚ) : ∀ x ∈ xs, |x| ≤ maxAbs xs := by
  induction xs with
  | nil => simp
  | cons y ys ih =>
      intro x hx
      rcases List.mem_cons.1 hx with h | h
      · subst h
        rw [maxAbs_cons]
        exact le_max_left _ _
      · rw [maxAbs_cons]
        exact le_trans (ih x h) (le_max_right _ _)

lemma maxAbs_le_one (xs : List ℚ) (h : ∀ x ∈ xs, |x| ≤ 1) : maxAbs xs ≤ 1 := by
  induction xs with
  | nil => simp [maxAbs]
  | cons y ys ih =>
      rw [maxAbs_cons]
      exact max_le (h y (by simp)) (ih fun x hx => h x (by simp [hx]))

lemma normalize_abs_le_one (xs : List ℚ) : ∀ x ∈ normalize xs, |x| ≤ 1 := by
  intro x hx
  by_cases hgt : maxAbs xs > 1
  · simp only [normalize, if_pos hgt] at hx
    rcases List.mem_map.1 hx with ⟨y, hy, rfl⟩
    have h1 : |y| ≤ maxAbs xs := abs_le_maxAbs xs y hy
    have h0 : (0 : ℚ) < maxAbs xs := lt_trans one_pos hgt
    rw [abs_div, abs_of_pos h0, div_le_one h0]
    exact h1
  · simp only [normalize, if_neg hgt] at hx
    push_neg at hgt
    exact le_trans (abs_le_maxAbs xs x hx) hgt

lemma fitLength_length (d : List ℚ) (n : Nat) : (fitLength d n).length = n := by
  unfold fitLength
  by_cases h : d.length = n
  · simp [h]
  · by_cases h2 : d.length > n
    · simp [h, h2]
      omega
    · simp [h, h2]
      omega

lemma fitLength_of_longer (d : List ℚ) (n : Nat) (h : d.length > n) :
    fitLength d n = d.take n := by
  unfold fitLength
  rw [if_pos (by omega), if_pos h]

lemma fitLength_of_shorter (d : List ℚ) (n : Nat) (h : d.length < n) :
    fitLength d n = d ++ List.replicate (n - d.length) 0 := by
  unfold fitLength
  rw [if_pos (by omega), if_neg (by omega)]

lemma fitLength_of_eq (d : List ℚ) (n : Nat) (h : d.length = n) :
    fitLength d n = d := by
  unfold fitLength
  rw [if_neg (by omega)]

/-- The stats and flag effect of a decoded `process` call: either the stats
are untouched and the delivered status is not success, or only the error
counter ticks and the delivered status is not success, or the success
update runs and the delivered status is success.  The flag never changes. -/
lemma processDecoded_cases (m : Model) (enc : ℚ → List Nat)
    (st : ServiceState) (a : List ℚ) (dt : ℚ) :
    (processDecoded m enc st a dt).1.is_initialized = st.is_initialized ∧
    (((processDecoded m enc st a dt).1.stats = st.stats ∧
        (processDecoded m enc st a dt).2.status ≠ "success") ∨
     ((processDecoded m enc st a dt).1.stats =
          { st.stats with errors := st.stats.errors + 1 } ∧
        (processDecoded m enc st a dt).2.status ≠ "success") ∨
     ((processDecoded m enc st a dt).1.stats = statsOnSuccess st.stats dt ∧
        (processDecoded m enc st a dt).2.status = "success")) := by
  by_cases hin : st.is_initialized
  · by_cases hlen : a.length = 0
    · simp [processDecoded, process_audio, hin, hlen, encodeResult, deliver,
        serializable]
    · rcases hm : m (normalize a) with e | d
      · simp [processDecoded, process_audio, hin, hlen, hm, encodeResult,
          deliver, serializable]
      · simp [processDecoded, process_audio, hin, hlen, hm, encodeResult,
          deliver, serializable]
  · simp [processDecoded, process_audio, hin, encodeResult, deliver,
      serializable]

/-- The stats and flag effect of one loop iteration, by command kind. -/
lemma step_cases (m : Model) (enc : ℚ → List Nat) (st : ServiceState)
    (l : Line) (env : StepEnv) :
    (((step m enc st l env).1.stats = st.stats ∧
        ¬ (isProcessLine l = true ∧ (step m enc st l env).2.status = "success")) ∨
     ((step m enc st l env).1.stats =
          { st.stats with errors := st.stats.errors + 1 } ∧
        ¬ (isProcessLine l = true ∧ (step m enc st l env).2.status = "success")) ∨
     ((step m enc st l env).1.stats = statsOnSuccess st.stats env.dt ∧
        isProcessLine l = true ∧ (step m enc st l env).2.status = "success")) := by
  rcases l with e | ⟨c, audio, mp⟩
  · left
    simp [step, isProcessLine]
  · by_cases hcInit : c = some "init"
    · left
      rcases hload : env.load with u | e
      · simp [step, hcInit, initialize_model, hload, deliver, serializable,
          isProcessLine]
      · simp [step, hcInit, initialize_model, hload, deliver, serializable,
          isProcessLine]
    · by_cases hcProc : c = some "process"
      · by_cases hfal : audio = Option.none ∨ audio = some []
        · left
          simp [step, hcInit, hcProc, hfal, deliver, serializable,
            isProcessLine]
        · rcases hdec : b64decode (audio.getD []) with _ | bytes
          · left
            simp [step, hcInit, hcProc, hfal, hdec, deliver, serializable,
              isProcessLine]
          · rcases hfb : frombuffer bytes with e | samples
            · left
              simp [step, hcInit, hcProc, hfal, hdec, hfb, deliver,
                serializable, isProcessLine]
            · have hpc := (processDecoded_cases m enc st samples env.dt).2
              have hstep : step m enc st (Line.cmd c audio mp) env =
                  processDecoded m enc st samples env.dt := by
                simp [step, hcInit, hcProc, hfal, hdec, hfb]
              rw [hstep]
              rcases hpc with ⟨h1, h2⟩ | ⟨h1, h2⟩ | ⟨h1, h2⟩
              · left
                exact ⟨h1, fun hcon => h2 hcon.2⟩
              · right; left
                exact ⟨h1, fun hcon => h2 hcon.2⟩
              · right; right
                exact ⟨h1, by simp [isProcessLine, hcProc], h2⟩
      · left
        by_cases hcH : c = some "health"
        · simp [step, hcInit, hcProc, hcH, health_check, deliver,
            serializable, isProcessLine]
        · simp [step, hcInit, hcProc, hcH, deliver, serializable,
            isProcessLine]

/-- The flag effect of one loop iteration: the flag after the step is the
flag before, or-ed with "this was an `init` whose response is a success". -/
lemma step_flag (m : Model) (enc : ℚ → List Nat) (st : ServiceState)
    (l : Line) (env : StepEnv) :
    (step m enc st l env).1.is_initialized =
      (st.is_initialized ||
        (isInitLine l && ((step m enc st l env).2.status == "success"))) := by
  rcases l with e | ⟨c, audio, mp⟩
  · simp [step, isInitLine]
  · by_cases hcInit : c = some "init"
    · rcases hload : env.load with u | e
      · simp [step, hcInit, initialize_model, hload, deliver, serializable,
          isInitLine]
      · simp [step, hcInit, initialize_model, hload, deliver, serializable,
          isInitLine]
    · have hII : isInitLine (Line.cmd c audio mp) = false := by
        simp [isInitLine, hcInit]
      rw [hII]
      simp only [Bool.false_and, Bool.or_false]
      by_cases hcProc : c = some "process"
      · by_cases hfal : audio = Option.none ∨ audio = some []
        · simp [step, hcInit, hcProc, hfal, deliver, serializable]
        · rcases hdec : b64decode (audio.getD []) with _ | bytes
          · simp [step, hcInit, hcProc, hfal, hdec, deliver, serializable]
          · rcases hfb : frombuffer bytes with e | samples
            · simp [step, hcInit, hcProc, hfal, hdec, hfb, deliver,
                serializable]
            · have hstep : step m enc st (Line.cmd c audio mp) env =
                  processDecoded m enc st samples env.dt := by
                simp [step, hcInit, hcProc, hfal, hdec, hfb]
              rw [hstep]
              exact (processDecoded_cases m enc st samples env.dt).1
      · by_cases hcH : c = some "health"
        · simp [step, hcInit, hcProc, hcH, health_check, deliver,
            serializable]
        · simp [step, hcInit, hcProc, hcH, deliver, serializable]

/-- A failed `init` delivers a status=error response and leaves the whole
session state unchanged. -/
lemma step_init_error (m : Model) (enc : ℚ → List Nat) (st : ServiceState)
    (audio : Option (List Char)) (mp : Option String) (env : StepEnv)
    (herr : (step m enc st (Line.cmd (some "init") audio mp) env).2.status
      = "error") :
    (step m enc st (Line.cmd (some "init") audio mp) env).1 = st := by
  rcases hload : env.load with e | u
  · simp [step, initialize_model, hload, deliver, serializable]
  · exfalso
    simp [step, initialize_model, hload, deliver, serializable] at herr

/-- `avg_time == total_time / total_processed` is an invariant of whole runs,
and `total_processed` counts exactly the successful `process` responses. -/
lemma runService_stats (m : Model) (enc : ℚ → List Nat)
    (cmds : List (Line × StepEnv)) : ∀ st : ServiceState,
    st.stats.avg_time = st.stats.total_time / (st.stats.total_processed : ℚ) →
    (runService m enc st cmds).1.stats.total_processed
        = st.stats.total_processed + countSuccess (runService m enc st cmds).2 ∧
    (runService m enc st cmds).1.stats.avg_time
        = (runService m enc st cmds).1.stats.total_time /
          ((runService m enc st cmds).1.stats.total_processed : ℚ) := by
  induction cmds with
  | nil =>
      intro st hinv
      simpa [runService, countSuccess] using hinv
  | cons p rest ih =>
      intro st hinv
      rcases p with ⟨l, env⟩
      have hcount : countSuccess ((l, (step m enc st l env).2) ::
          (runService m enc (step m enc st l env).1 rest).2)
          = (if isProcessLine l = true ∧
                (step m enc st l env).2.status = "success" then 1 else 0)
            + countSuccess (runService m enc (step m enc st l env).1 rest).2 := by
        by_cases h : isProcessLine l = true ∧
            (step m enc st l env).2.status = "success"
        · simp only [countSuccess, List.filter, h.1, h.2]
          simp
          omega
        · have hb : (isProcessLine l &&
              ((step m enc st l env).2.status == "success")) = false := by
            by_cases h1 : isProcessLine l = true
            · cases hq : ((step m enc st l env).2.status == "success") with
              | false => simp [h1, hq]
              | true => exact absurd ⟨h1, eq_of_beq hq⟩ h
            · have h1' : isProcessLine l = false := by
                revert h1
                cases isProcessLine l <;> simp
              simp [h1']
          simp only [countSuccess, List.filter, hb, if_neg h]
          simp
      have hrun : runService m enc st ((l, env) :: rest)
          = ((runService m enc (step m enc st l env).1 rest).1,
             (l, (step m enc st l env).2) ::
               (runService m enc (step m enc st l env).1 rest).2) := rfl
      rcases step_cases m enc st l env with ⟨h1, h2⟩ | ⟨h1, h2⟩ | ⟨h1, h2, h3⟩
      · have hinv' : (step m enc st l env).1.stats.avg_time =
            (step m enc st l env).1.stats.total_time /
              ((step m enc st l env).1.stats.total_processed : ℚ) := by
          rw [h1]; exact hinv
        have ihr := ih (step m enc st l env).1 hinv'
        rw [hrun]
        dsimp only
        rw [hcount, if_neg h2]
        rw [h1] at ihr
        exact ⟨by rw [ihr.1]; omega, ihr.2⟩
      · have e1 : (step m enc st l env).1.stats.total_processed
            = st.stats.total_processed := by rw [h1]
        have e2 : (step m enc st l env).1.stats.total_time
            = st.stats.total_time := by rw [h1]
        have e3 : (step m enc st l env).1.stats.avg_time
            = st.stats.avg_time := by rw [h1]
        have hinv' : (step m enc st l env).1.stats.avg_time =
            (step m enc st l env).1.stats.total_time /
              ((step m enc st l env).1.stats.total_processed : ℚ) := by
          rw [e1, e2, e3]; exact hinv
        have ihr := ih (step m enc st l env).1 hinv'
        rw [hrun]
        dsimp only
        rw [hcount, if_neg h2]
        rw [e1] at ihr
        exact ⟨by rw [ihr.1]; omega, ihr.2⟩
      · have e1 : (step m enc st l env).1.stats.total_processed
            = st.stats.total_processed + 1 := by
          rw [h1]
          simp [statsOnSuccess]
        have hinv' : (step m enc st l env).1.stats.avg_time =
            (step m enc st l env).1.stats.total_time /
              ((step m enc st l env).1.stats.total_processed : ℚ) := by
          rw [h1]
          simp [statsOnSuccess]
        have ihr := ih (step m enc st l env).1 hinv'
        rw [hrun]
        dsimp only
        rw [hcount, if_pos ⟨h2, h3⟩]
        rw [e1] at ihr
        exact ⟨by rw [ihr.1]; omega, ihr.2⟩

/-! ### Concrete fixtures used by witnesses and counterexamples -/

/-- A model that denoises to the identity. -/
def m0 : Model := fun xs => Except.ok xs

/-- A model whose invocation raises. -/
def mBad : Model := fun _ => Except.error "inference raised"

/-- A float32 serialization fixture: every sample to four zero bytes. -/
def enc0 : ℚ → List Nat := fun _ => [0, 0, 0, 0]

/-- A session state right after a successful `init`. -/
def readySt : ServiceState := { is_initialized := true, stats := Stats.start }

/-- `"AAAAAA=="`: the base64 transport form of one zero float32 sample. -/
def audioZero : List Char := ['A', 'A', 'A', 'A', 'A', 'A', '=', '=']

/-- A `process` command carrying `audioZero`. -/
def procLine : Line := Line.cmd (some "process") (some audioZero) Option.none

/-! ### Claims -/

/-- C1: false on the code — after a successful init, a `process` command
whose model invocation raises does NOT deliver the original audio payload.
`process_audio` itself does put the array into its error dict (line 201,
the fail-soft intent) together with the elapsed time, but `main` re-encodes
the audio entry only when `status == 'success'` (line 271), so
`json.dumps` raises `TypeError` on the ndarray and the outer handler
delivers a `Service error` envelope with no audio and no processing time. -/
theorem c1_failure_loses_audio :
    (process_audio mBad readySt [0] 5).2.audio = AudioField.raw [0] ∧
    (process_audio mBad readySt [0] 5).2.processing_time = some 5 ∧
    (step mBad enc0 readySt procLine ⟨Except.ok (), 5⟩).2 =
      { status := "error",
        message :=
          some "Service error: Object of type ndarray is not JSON serializable",
        audio := AudioField.none } := by
  decide

/-- C6: a line `json.loads` rejects is answered with status=error and a
message starting `Invalid JSON: `, the state is unchanged, and the loop
goes on to handle the remaining lines exactly as it would have without the
bad line. -/
theorem c6_invalid_json (m : Model) (enc : ℚ → List Nat) (st : ServiceState)
    (e : String) (env : StepEnv) (rest : List (Line × StepEnv)) :
    step m enc st (Line.invalid e) env =
      (st, { status := "error", message := some ("Invalid JSON: " ++ e) }) ∧
    runService m enc st ((Line.invalid e, env) :: rest) =
      ((runService m enc st rest).1,
        (Line.invalid e,
          { status := "error", message := some ("Invalid JSON: " ++ e) })
          :: (runService m enc st rest).2) :=
  ⟨rfl, rfl⟩

/-- C10: a `process` command whose audio field is absent or the empty
string (both falsy) is answered `No audio data provided` with the state
untouched, and the outcome does not depend on the model or the encoder —
neither is invoked. -/
theorem c10_no_audio (m : Model) (enc : ℚ → List Nat) (st : ServiceState)
    (audio : Option (List Char)) (mp : Option String) (env : StepEnv)
    (h : audio = Option.none ∨ audio = some []) :
    step m enc st (Line.cmd (some "process") audio mp) env =
      (st, { status := "error", message := some "No audio data provided" }) ∧
    (∀ (m' : Model) (enc' : ℚ → List Nat),
      step m' enc' st (Line.cmd (some "process") audio mp) env
        = step m enc st (Line.cmd (some "process") audio mp) env) := by
  have hstep : ∀ (m' : Model) (enc' : ℚ → List Nat),
      step m' enc' st (Line.cmd (some "process") audio mp) env =
        (st, { status := "error", message := some "No audio data provided" }) := by
    intro m' enc'
    simp [step, if_pos h, deliver, serializable]
  exact ⟨hstep m enc, fun m' enc' => (hstep m' enc').trans (hstep m enc).symm⟩

theorem c10_no_audio_witness :
    step m0 enc0 ServiceState.start
        (Line.cmd (some "process") Option.none Option.none)
        ⟨Except.ok (), 0⟩ =
      (ServiceState.start,
        { status := "error", message := some "No audio data provided" }) :=
  (c10_no_audio m0 enc0 ServiceState.start Option.none Option.none
    ⟨Except.ok (), 0⟩ (Or.inl rfl)).1

/-- C7: base64 decode is a left inverse of base64 encode on any byte list
(a float32 buffer travels as its byte serialization, so the round-trip is
bit-for-bit), including the empty buffer, whose transport form is the empty
string; and submitting that empty transport form to `process` yields the
explicit `No audio data provided` error envelope, not a crash. -/
theorem c7_roundtrip (bs : List Nat) (hb : ∀ b ∈ bs, b < 256) (m : Model)
    (enc : ℚ → List Nat) (st : ServiceState) (mp : Option String)
    (env : StepEnv) :
    b64decode (b64encode bs) = some bs ∧
    b64encode (tobytes enc []) = [] ∧
    step m enc st
        (Line.cmd (some "process") (some (b64encode (tobytes enc []))) mp) env =
      (st, { status := "error", message := some "No audio data provided" }) := by
  refine ⟨b64decode_b64encode bs hb, rfl, ?_⟩
  simp [step, deliver, serializable, tobytes, b64encode]

theorem c7_roundtrip_witness :
    b64decode (b64encode [7, 255, 0]) = some [7, 255, 0] :=
  (c7_roundtrip [7, 255, 0] (by decide) m0 enc0 ServiceState.start
    Option.none ⟨Except.ok (), 0⟩).1

/-- C8: the flag after any step equals the flag before or-ed with "this
step was an `init` answered with success" — so `ready` is absorbing and the
only transition out of `uninitialized` is a successful `init`; and an
`init` answered with status=error leaves the whole state unchanged (in
particular `is_initialized` stays false when it was false). -/
theorem c8_state_machine (m : Model) (enc : ℚ → List Nat)
    (st : ServiceState) (l : Line) (env : StepEnv) :
    ((step m enc st l env).1.is_initialized =
      (st.is_initialized ||
        (isInitLine l && ((step m enc st l env).2.status == "success")))) ∧
    (∀ audio mp, l = Line.cmd (some "init") audio mp →
      (step m enc st l env).2.status = "error" →
      (step m enc st l env).1 = st) := by
  refine ⟨step_flag m enc st l env, ?_⟩
  intro audio mp hl herr
  subst hl
  exact step_init_error m enc st audio mp env herr

theorem c8_state_machine_witness :
    (step m0 enc0 ServiceState.start
        (Line.cmd (some "init") Option.none Option.none)
        ⟨Except.error "no model", 1⟩).1 = ServiceState.start :=
  (c8_state_machine m0 enc0 ServiceState.start
      (Line.cmd (some "init") Option.none Option.none)
      ⟨Except.error "no model", 1⟩).2 Option.none Option.none rfl (by decide)

/-- C3 counterexample: a `process` command with no audio field, received
before any successful `init`, is answered with message
`No audio data provided`, not `Model not initialized` — the claim's
parenthetical does not hold for every pre-init `process` command. -/
theorem c3_counterexample :
    ServiceState.start.is_initialized = false ∧
    (step m0 enc0 ServiceState.start
        (Line.cmd (some "process") Option.none Option.none)
        ⟨Except.ok (), 0⟩).2.message = some "No audio data provided" ∧
    (step m0 enc0 ServiceState.start
        (Line.cmd (some "process") Option.none Option.none)
        ⟨Except.ok (), 0⟩).2.message ≠ some "Model not initialized" := by
  decide

/-- C3 (amended): every `process` command received while the flag is still
false is answered status=error and leaves the whole state — statistics
included — unchanged; when the command carries a non-empty, decodable
audio payload, the message is `Model not initialized`. -/
theorem c3_preinit_process (m : Model) (enc : ℚ → List Nat)
    (st : ServiceState) (audio : Option (List Char)) (mp : Option String)
    (env : StepEnv) (h : st.is_initialized = false) :
    (step m enc st (Line.cmd (some "process") audio mp) env).2.status
      = "error" ∧
    (step m enc st (Line.cmd (some "process") audio mp) env).1 = st ∧
    (∀ s bytes, audio = some s → s ≠ [] → b64decode s = some bytes →
      bytes.length % 4 = 0 →
      (step m enc st (Line.cmd (some "process") audio mp) env).2.message
        = some "Model not initialized") := by
  have hflag : ¬ st.is_initialized = true := by simp [h]
  by_cases hfal : audio = Option.none ∨ audio = some []
  · refine ⟨?_, ?_, ?_⟩
    · simp [step, if_pos hfal, deliver, serializable]
    · simp [step, if_pos hfal, deliver, serializable]
    · intro s bytes hs hsne hdec h4
      rcases hfal with hf | hf
      · rw [hf] at hs
        exact absurd hs (by simp)
      · rw [hf] at hs
        exact absurd (Option.some.inj hs).symm hsne
  · rcases hdec : b64decode (audio.getD []) with _ | bytes
    · refine ⟨?_, ?_, ?_⟩
      · simp [step, if_neg hfal, hdec, deliver, serializable]
      · simp [step, if_neg hfal, hdec, deliver, serializable]
      · intro s bytes hs hsne hdec2 h4
        rw [hs] at hdec
        simp at hdec
        rw [hdec] at hdec2
        exact absurd hdec2 (by simp)
    · rcases hfb : frombuffer bytes with e | samples
      · refine ⟨?_, ?_, ?_⟩
        · simp [step, if_neg hfal, hdec, hfb, deliver, serializable]
        · simp [step, if_neg hfal, hdec, hfb, deliver, serializable]
        · intro s bytes2 hs hsne hdec2 h4
          rw [hs] at hdec
          simp at hdec
          rw [hdec] at hdec2
          have hb2 : bytes2 = bytes := Option.some.inj hdec2.symm
          subst hb2
          simp [frombuffer, h4] at hfb
      · have hstep : step m enc st (Line.cmd (some "process") audio mp) env
            = processDecoded m enc st samples env.dt := by
          simp [step, if_neg hfal, hdec, hfb]
        refine ⟨?_, ?_, ?_⟩
        · rw [hstep]
          simp [processDecoded, process_audio, hflag, encodeResult, deliver,
            serializable]
        · rw [hstep]
          simp [processDecoded, process_audio, hflag, encodeResult, deliver,
            serializable]
        · intro s bytes2 hs hsne hdec2 h4
          rw [hstep]
          simp [processDecoded, process_audio, hflag, encodeResult, deliver,
            serializable]

theorem c3_preinit_process_witness :
    (step m0 enc0 ServiceState.start
        (Line.cmd (some "process") (some audioZero) Option.none)
        ⟨Except.ok (), 0⟩).2.message = some "Model not initialized" :=
  (c3_preinit_process m0 enc0 ServiceState.start (some audioZero)
      Option.none ⟨Except.ok (), 0⟩ rfl).2.2 audioZero [0, 0, 0, 0] rfl
    (by decide) (by decide) (by decide)

/-- C5 counterexample: `avg_time` is not monotonically non-decreasing —
after a successful 100 ms `process` call the average is 100, and a
following successful 0 ms call drops it to 50. -/
theorem c5_counterexample :
    (process_audio m0 readySt [0] 100).1.stats.avg_time = 100 ∧
    (process_audio m0 (process_audio m0 readySt [0] 100).1 [0] 0).1.stats.avg_time
      = 50 ∧
    ¬ (100 : ℚ) ≤ 50 := by
  have hn : normalize [(0 : ℚ)] = [0] := by
    norm_num [normalize, maxAbs]
  have h1 : (process_audio m0 readySt [0] 100).1
      = { is_initialized := true, stats := statsOnSuccess Stats.start 100 } := by
    simp [process_audio, readySt, m0, hn, fitLength]
  have h2 : (process_audio m0
        ({ is_initialized := true,
           stats := statsOnSuccess Stats.start 100 } : ServiceState) [0] 0).1
      = { is_initialized := true,
          stats := statsOnSuccess (statsOnSuccess Stats.start 100) 0 } := by
    simp [process_audio, m0, hn, fitLength]
  rw [h1, h2]
  norm_num [statsOnSuccess, Stats.start]

/-- C5 (amended): `total_processed`, `total_time`, `max_time` and `errors`
are monotonically non-decreasing across every operation (given the
nonnegative per-command elapsed time); `avg_time` is excluded — it
decreases whenever a successful call is faster than the running average. -/
theorem c5_stats_monotone (m : Model) (enc : ℚ → List Nat)
    (st : ServiceState) (l : Line) (env : StepEnv) (h : 0 ≤ env.dt) :
    st.stats.total_processed
      ≤ (step m enc st l env).1.stats.total_processed ∧
    st.stats.total_time ≤ (step m enc st l env).1.stats.total_time ∧
    st.stats.max_time ≤ (step m enc st l env).1.stats.max_time ∧
    st.stats.errors ≤ (step m enc st l env).1.stats.errors := by
  rcases step_cases m enc st l env with ⟨h1, _⟩ | ⟨h1, _⟩ | ⟨h1, _, _⟩
  · rw [h1]
    exact ⟨le_refl _, le_refl _, le_refl _, le_refl _⟩
  · rw [h1]
    exact ⟨le_refl _, le_refl _, le_refl _, by simp⟩
  · rw [h1]
    refine ⟨by simp [statsOnSuccess], ?_, ?_, le_refl _⟩
    · simp only [statsOnSuccess]
      linarith
    · simp only [statsOnSuccess]
      exact le_max_left _ _

theorem c5_stats_monotone_witness :
    readySt.stats.total_time
      ≤ (step m0 enc0 readySt procLine ⟨Except.ok (), 3⟩).1.stats.total_time :=
  (c5_stats_monotone m0 enc0 readySt procLine ⟨Except.ok (), 3⟩
    (by norm_num)).2.1

/-- C9: after the renormalization step every sample handed to the model
lies in [-1, 1]; a buffer with a sample of magnitude above one is divided
through by its maximum absolute value, a buffer already within [-1, 1] is
passed through unscaled; and inside `process_audio` the model is applied
precisely to `normalize audio_data`, whose output (length-fitted) or, on
failure, the scaled buffer itself, lands in the result's audio entry. -/
theorem c9_renormalize (a : List ℚ) (m : Model) (st : ServiceState)
    (dt : ℚ) :
    (∀ x ∈ normalize a, |x| ≤ 1) ∧
    ((∃ x ∈ a, 1 < |x|) → normalize a = a.map (fun x => x / maxAbs a)) ∧
    ((∀ x ∈ a, |x| ≤ 1) → normalize a = a) ∧
    (st.is_initialized = true → a ≠ [] →
      (process_audio m st a dt).2.audio =
        (match m (normalize a) with
          | Except.ok d => AudioField.raw (fitLength d a.length)
          | Except.error _ => AudioField.raw (normalize a))) := by
  refine ⟨normalize_abs_le_one a, ?_, ?_, ?_⟩
  · rintro ⟨x, hx, hgt⟩
    have hm1 : maxAbs a > 1 := lt_of_lt_of_le hgt (abs_le_maxAbs a x hx)
    simp [normalize, hm1]
  · intro hall
    have hm1 : ¬ maxAbs a > 1 := not_lt.mpr (maxAbs_le_one a hall)
    simp [normalize, hm1]
  · intro hinit hne
    have hlen : ¬ a.length = 0 := by simpa using hne
    rcases hm : m (normalize a) with e | d
    · simp [process_audio, hinit, hlen, hm]
    · simp [process_audio, hinit, hlen, hm]

theorem c9_renormalize_witness :
    normalize [(2 : ℚ), 1]
      = [(2 : ℚ), 1].map (fun x => x / maxAbs [(2 : ℚ), 1]) :=
  (c9_renormalize [(2 : ℚ), 1] m0 readySt 0).2.1 (by decide)

/-- C4: starting from the fresh session state, after any run of commands
the health response reports the final statistics record, its
`total_processed` equals the number of successful `process` calls in the
run, and `avg_time` equals `total_time` divided by that count. -/
theorem c4_health_stats (m : Model) (enc : ℚ → List Nat)
    (cmds : List (Line × StepEnv)) :
    (health_check (runService m enc ServiceState.start cmds).1).stats
      = some (runService m enc ServiceState.start cmds).1.stats ∧
    (runService m enc ServiceState.start cmds).1.stats.total_processed
      = countSuccess (runService m enc ServiceState.start cmds).2 ∧
    (runService m enc ServiceState.start cmds).1.stats.avg_time
      = (runService m enc ServiceState.start cmds).1.stats.total_time /
        ((countSuccess (runService m enc ServiceState.start cmds).2 : Nat) : ℚ) := by
  have h := runService_stats m enc cmds ServiceState.start
    (by simp [ServiceState.start, Stats.start])
  have h1 : (runService m enc ServiceState.start cmds).1.stats.total_processed
      = countSuccess (runService m enc ServiceState.start cmds).2 := by
    have := h.1
    simpa [ServiceState.start, Stats.start] using this
  refine ⟨rfl, h1, ?_⟩
  rw [h.2, h1]

/-- C2: a non-empty float32 buffer of N samples, submitted to `process`
after a successful init with the model returning normally, is answered
with a success response whose base64 audio payload decodes back to exactly
N float32 samples; the model output was trimmed to N when longer and
zero-padded to N when shorter. -/
theorem c2_output_length (m : Model) (enc : ℚ → List Nat)
    (henc : ∀ q, (enc q).length = 4 ∧ ∀ b ∈ enc q, b < 256)
    (st : ServiceState) (s : List Char) (bytes : List Nat)
    (mp : Option String) (env : StepEnv) (den : List ℚ)
    (hinit : st.is_initialized = true) (hs : s ≠ [])
    (hdec : b64decode s = some bytes) (h4 : bytes.length % 4 = 0)
    (hne : bytes ≠ [])
    (hm : m (normalize (floats_of_bytes bytes)) = Except.ok den) :
    (step m enc st (Line.cmd (some "process") (some s) mp) env).2.status
      = "success" ∧
    (step m enc st (Line.cmd (some "process") (some s) mp) env).2.audio
      = AudioField.b64
          (b64encode (tobytes enc (fitLength den (bytes.length / 4)))) ∧
    b64decode (b64encode (tobytes enc (fitLength den (bytes.length / 4))))
      = some (tobytes enc (fitLength den (bytes.length / 4))) ∧
    (floats_of_bytes (tobytes enc (fitLength den (bytes.length / 4)))).length
      = bytes.length / 4 ∧
    (den.length > bytes.length / 4 →
      fitLength den (bytes.length / 4) = den.take (bytes.length / 4)) ∧
    (den.length < bytes.length / 4 →
      fitLength den (bytes.length / 4)
        = den ++ List.replicate (bytes.length / 4 - den.length) 0) := by
  have hfal : ¬ (some s = Option.none ∨ some s = some []) := by simp [hs]
  have hN : (floats_of_bytes bytes).length = bytes.length / 4 :=
    floats_of_bytes_length bytes
  have hlen : ¬ (floats_of_bytes bytes).length = 0 := by
    rw [hN]
    have : bytes.length ≠ 0 := by
      intro hcon
      exact hne (List.length_eq_zero.1 hcon)
    omega
  have hstep : step m enc st (Line.cmd (some "process") (some s) mp) env
      = processDecoded m enc st (floats_of_bytes bytes) env.dt := by
    simp [step, hs, hdec, frombuffer, h4]
  have hout : processDecoded m enc st (floats_of_bytes bytes) env.dt
      = (( { st with stats := statsOnSuccess st.stats env.dt } : ServiceState),
         deliver (encodeResult enc
           { status := "success",
             audio := AudioField.raw
               (fitLength den (floats_of_bytes bytes).length),
             processing_time := some env.dt,
             input_samples := some (floats_of_bytes bytes).length,
             output_samples :=
               some (fitLength den (floats_of_bytes bytes).length).length,
             stats := some (statsOnSuccess st.stats env.dt) })) := by
    simp [processDecoded, process_audio, hinit, hlen, hm]
  have hbound : ∀ b ∈ tobytes enc (fitLength den (bytes.length / 4)),
      b < 256 := by
    intro b hb
    rcases List.mem_flatten.1 hb with ⟨l, hl, hbl⟩
    rcases List.mem_map.1 hl with ⟨q, _, rfl⟩
    exact (henc q).2 b hbl
  refine ⟨?_, ?_, b64decode_b64encode _ hbound, ?_, ?_, ?_⟩
  · rw [hstep, hout]
    simp [encodeResult, deliver, serializable]
  · rw [hstep, hout, hN]
    simp [encodeResult, deliver, serializable]
  · rw [floats_of_bytes_length,
      tobytes_length enc (fun q => (henc q).1), fitLength_length]
    omega
  · intro hgt
    exact fitLength_of_longer den (bytes.length / 4) hgt
  · intro hlt
    exact fitLength_of_shorter den (bytes.length / 4) hlt

lemma enc0_spec (q : ℚ) : (enc0 q).length = 4 ∧ ∀ b ∈ enc0 q, b < 256 := by
  constructor
  · rfl
  · show ∀ b ∈ [0, 0, 0, 0], b < 256
    decide

theorem c2_output_length_witness :
    (step m0 enc0 readySt (Line.cmd (some "process") (some audioZero)
        Option.none) ⟨Except.ok (), 2⟩).2.status = "success" :=
  (c2_output_length m0 enc0 enc0_spec readySt audioZero
      [0, 0, 0, 0] Option.none ⟨Except.ok (), 2⟩
      (normalize (floats_of_bytes [0, 0, 0, 0])) rfl (by decide) (by decide)
      (by decide) (by decide) rfl).1

end Denoiser
